import Mathlib

/-!
Verification of the anysd USSD dialog engine (somwaki/anysd).

This file shallowly embeds the turn-evaluation core of `src/anysd/main.py`
(the generation that supports `ConditionalFlow`, `_VALUE` capture and
`USSD_VALID_LAST_INPUT`; the older `main.py` at the repository root is
embedded only where a claim cites it, namely the channel framing of
`FormFlow.get_response`).  Machine-level Python behaviours that the claims
depend on — `int(...)` parsing, negative list indexing, `str.format`
placeholder substitution, `str(None)` — are modelled explicitly.

Conventions used throughout:
  * Python exceptions are an explicit `Except`/sum result;
  * the Redis session hash is a function `String → Option PyVal`
    (`none` = field absent; `some .vnone` = field present holding `None`);
  * `back_symbol`/`home_symbol` are the configuration defaults `"0"`/`"00"`
    (conf.py lines 11-20);
  * user callbacks (`step_validator`) are abstract function parameters, with
    the non-bool-coerced-to-`True` post-processing of
    `FormFlow._validate_last_input` already applied (its result is the
    `Bool` the parameter returns).
-/

namespace Anysd

/-- Default back symbol, conf.py lines 11-15. -/
def back_symbol : String := "0"

/-- Default home symbol, conf.py lines 17-20. -/
def home_symbol : String := "00"

/-- Model of Python `int(s)` for `str` arguments: optional surrounding
whitespace, an optional sign, then one or more decimal digits.  Returns
`none` where Python raises `ValueError`.  (Python's underscore digit
grouping, e.g. `int("1_0")`, is not modelled; no such token appears in the
claims.) -/
def digitsToNat? (ds : List Char) : Option Nat :=
  if ds = [] then none
  else if ds.all Char.isDigit then
    some (ds.foldl (fun acc c => acc * 10 + (c.toNat - 48)) 0)
  else none

/-- Python `int(s)`: see `digitsToNat?`. -/
def pyInt? (s : String) : Option Int :=
  let core := (s.data.dropWhile Char.isWhitespace).reverse.dropWhile Char.isWhitespace |>.reverse
  match core with
  | '-' :: ds => (digitsToNat? ds).map (fun n => -(n : Int))
  | '+' :: ds => (digitsToNat? ds).map (fun n => (n : Int))
  | ds => (digitsToNat? ds).map (fun n => (n : Int))

/-- Python `list.pop(index)` followed by `list.pop(index - 1)` as executed in
`NavigationController._path_process` (main.py lines 555-556): removes the
elements at positions `index - 1` and `index`.  The branch runs only when
`path[index] == back_symbol` and `path[0]` is not a back/home symbol, so
`index ≥ 1` there; the `index = 0` case (Python would pop the head and then
the last element, via negative indexing) is included for totality. -/
def popPair (path : List String) (index : Nat) : List String :=
  if index = 0 then (path.eraseIdx 0).dropLast
  else (path.eraseIdx index).eraseIdx (index - 1)

/-- NavigationController._path_process (main.py lines 531-570): folds
back/home tokens into an effective path.  The Python mutates `path` in
place and recurses; here the same computation is functional.  The
`path_as_list is None` Redis fallback (line 541) is outside the model: every
caller in `navigate` passes an explicit list. -/
def pathProcess (path : List String) (index : Nat) : List String :=
  if path.head? = some back_symbol ∨ path.head? = some home_symbol then []
  else if path.length = 1 then path
  else if index + 1 > path.length then path
  else if path[index]? = some back_symbol then
    let p2 := popPair path index
    if p2.length > index - 1 then pathProcess p2 (index - 1) else p2
  else if path[index]? = some home_symbol then
    let p2 := path.drop (index + 1)
    if p2.length > 1 then pathProcess p2 1 else p2
  else pathProcess path (index + 1)
termination_by (path.length, path.length - index)
decreasing_by
  · apply Prod.Lex.left
    have hlen : index < path.length := by omega
    by_cases h0 : index = 0
    · subst h0
      simp [popPair, List.length_eraseIdx, List.length_dropLast]
      omega
    · simp [popPair, h0, List.length_eraseIdx]
      split_ifs <;> omega
  · apply Prod.Lex.left
    simp [List.length_drop]
    omega
  · apply Prod.Lex.right
    omega

/-- NavigationController.path_processor (main.py lines 583-591): normalize,
then drop `offset` leading tokens when the result is long enough. -/
def path_processor (path_as_list : List String) (offset : Option Nat) : List String :=
  let off := offset.getD 0
  let processed_path := pathProcess path_as_list 1
  if off ≤ processed_path.length then processed_path.drop off else processed_path

/-- The path normalizer as `navigate` invokes it: `path_processor` with the
default `offset=None` (main.py lines 658-659 with `navigate(offset=None)`),
which is `_path_process(path, index=1)`. -/
def normalize_path (p : List String) : List String := path_processor p none

/-- The PROCESSED_PATH value `navigate` leaves in the session for the turn
(main.py lines 643-686, non-exception path): the stored-before value, with
a truthy `last_input` appended (line 655-656), normalized (lines 659, 671),
and truncated by one token when the rendered menu reported the last input
invalid (lines 684-685). -/
def storedProcessedPath (before : List String) (last_input : String)
    (valid_last_input : Option Bool) : List String :=
  let processed_path := if last_input ≠ "" then before ++ [last_input] else before
  let pro_path := path_processor processed_path none
  if valid_last_input = some false then pro_path.dropLast else pro_path

/-! ## FormFlow and ListInput -/

/-- A value held in the session hash or a `_state` patch.  `vnone` is
Python's `None` (which `_redis_processing` turns into a field deletion). -/
inductive PyVal
  | vint (n : Int)
  | vstr (s : String)
  | vnone
deriving DecidableEq

/-- ListInput (main.py lines 47-133) with a static list of plain-string
items; callable item producers, dict/tuple items and translations
(`lang ≠ None`) are outside the model. -/
structure ListInputD where
  items : List String
  title : String
  extra : Option String := none
  empty_list_message : String := ""
deriving DecidableEq

/-- ListInput.validate (main.py lines 119-133): `False` for a `None` key or
a key `int()` rejects, else whether the parsed index lies in
`range(1, len(items) + 1)`. -/
def ListInputD.validate (li : ListInputD) (key : Option String) : Bool :=
  match key with
  | none => false
  | some s =>
    match pyInt? s with
    | none => false
    | some k => decide (1 ≤ k ∧ k ≤ (li.items.length : Int))

/-- ListInput.get_item (main.py lines 107-117): the `idx`-th item, 1-based,
or Python `None` when out of range. -/
def ListInputD.get_item (li : ListInputD) (idx : Int) : Option String :=
  if 1 ≤ idx ∧ idx ≤ (li.items.length : Int) then li.items[(idx - 1).toNat]?
  else none

/-- ListInput.get_items (main.py lines 68-105) with `lang = None` and static
string items: `empty_list_message` for an empty list, else the `CON`-headed
title plus the 1-based enumeration, plus the optional `extra` tail. -/
def ListInputD.get_items (li : ListInputD) : String :=
  let menu :=
    if li.items.length = 0 then li.empty_list_message
    else
      "CON " ++ li.title ++ "\n" ++
        String.intercalate "\n"
          ((List.enumFrom 1 li.items).map (fun p => toString p.1 ++ ". " ++ p.2))
  let xtra := match li.extra with | none => "" | some x => "\n" ++ x
  menu ++ xtra

/-- A form step's `menu` value: a `ListInput` or a plain string.  Callable
menus and translation dicts are outside the model. -/
inductive Menu
  | listInput (li : ListInputD)
  | str (s : String)

/-- One entry of `form_questions`: its `name` and `menu` (the optional
`post_call` is invoked for side effects only and its result is discarded,
main.py lines 273-283, so it is not modelled). -/
structure Question where
  name : String
  menu : Menu

/-- The session hash (or a `_state` patch): `none` = field absent,
`some .vnone` = field present holding Python `None`. -/
abbrev SessionState := String → Option PyVal

def emptyState : SessionState := fun _ => none

def stateSet (st : SessionState) (k : String) (v : PyVal) : SessionState :=
  fun k2 => if k2 = k then some v else st k2

/-- Python `dict.update` with the pairs applied left to right. -/
def stateMerge (st : SessionState) (l : List (String × PyVal)) : SessionState :=
  l.foldl (fun s p => stateSet s p.1 p.2) st

/-- Dictionary lookup `form_questions[str(step)]` over the declaration
order; `form_questions` keys are distinct, so an association list is
faithful. -/
def qlookup (qs : List (String × Question)) (k : String) : Option Question :=
  (qs.find? (fun p => p.1 = k)).map Prod.snd

/-- FormFlow.get_step_type (main.py lines 155-160), returning the menu
itself rather than its Python class. -/
def get_step_type (qs : List (String × Question)) (step : Int) : Option Menu :=
  (qlookup qs (toString step)).map Question.menu

/-- The field-name check of main.py line 240:
`fname and fname.replace("_", "").isalnum() and not fname[0].isnumeric()`.
`isalnum`/`isnumeric` are modelled by their ASCII restrictions
(`Char.isAlphanum`/`Char.isDigit`); the claims involve ASCII names only. -/
def isValidFieldName (s : String) : Bool :=
  s ≠ "" &&
    (let t := s.data.filter (fun c => c ≠ '_')
     !t.isEmpty && t.all Char.isAlphanum) &&
    (match s.data with
     | c :: _ => !c.isDigit
     | [] => false)

/-- Python `json.dumps` on a plain string without characters needing
escapes (the case exercised by the claims). -/
def jsonDumps (s : String) : String := "\"" ++ s ++ "\""

/-- Python `json.dumps` applied to `get_item`'s result (`null` for None). -/
def jsonDumpsOpt : Option String → String
  | some s => jsonDumps s
  | none => "null"

/-- An optional item as a `_state` value (`None` when absent). -/
def pyOptVal : Option String → PyVal
  | some s => PyVal.vstr s
  | none => PyVal.vnone

/-- The Python exceptions `FormFlow._response` can let escape. -/
inductive FormExc
  | valueErrorExc
  | keyErrorExc
  | attributeErrorExc
  | formBackErrorExc
deriving DecidableEq

/-- FormFlow._response (main.py lines 185-351) for a translation-off session
(`lang = None`) with static menus.  First component: the Python outcome —
the rendered response string, the `_state` patch and `valid_last_input`, or
the exception that propagates (`ValueError` from `int(last_input)` at lines
243/264, `KeyError` re-raised by the bare `raise` at line 311 or raised at
line 314, `AttributeError` from `.get('name')` on a missing question at
line 239, `FormBackError` at line 302).  Second component: the direct
`set_var` Redis writes performed before returning or raising (lines
253-262).  The `step_validator` parameter returns what
`_validate_last_input` returns (so a non-bool validator verdict has already
been coerced to `True`, lines 175-178); for a `ListInput` step its verdict
is discarded and only its extra data is kept (lines 200-222). -/
def formResponse (qs : List (String × Question))
    (validator : Int → String → Bool × Option (List (String × PyVal)))
    (current_step : Int) (last_input : String) :
    Except FormExc (String × SessionState × Bool) × List (String × PyVal) :=
  let isBack := last_input = back_symbol
  let current : Int := if isBack then current_step - 2 else current_step
  let state0 : SessionState :=
    if isBack then stateSet emptyState "FORM_STEP" (PyVal.vint current) else emptyState
  let validAndExtra : Bool × Option (List (String × PyVal)) :=
    if isBack then (true, none)
    else
      match get_step_type qs current with
      | some (Menu.listInput li) =>
        (li.validate (some last_input), (validator current last_input).2)
      | _ => validator current last_input
  let valid := validAndExtra.1
  let state1 :=
    if isBack then state0
    else
      match validAndExtra.2 with
      | some extra => stateMerge state0 extra
      | none => state0
  if valid then
    let state2 := stateSet state1 "USSD_VALID_LAST_INPUT" (PyVal.vint 1)
    let captured : Except FormExc SessionState × List (String × PyVal) :=
      if last_input ≠ back_symbol ∧ last_input ≠ home_symbol ∧ current ≠ 0 then
        match qlookup qs (toString current) with
        | none => (Except.error FormExc.attributeErrorExc, [])
        | some q =>
          if isValidFieldName q.name then
            match q.menu with
            | Menu.listInput li =>
              match pyInt? last_input with
              | none => (Except.error FormExc.valueErrorExc, [])
              | some k =>
                let field_value := li.get_item k
                (Except.ok (stateSet
                    (stateSet state2 q.name (pyOptVal field_value))
                    (q.name ++ "_VALUE") (PyVal.vint (k - 1))),
                  [(q.name, PyVal.vstr (jsonDumpsOpt field_value)),
                   (q.name ++ "_VALUE", PyVal.vint (k - 1))])
            | Menu.str _ =>
              let writes := [(q.name, PyVal.vstr last_input),
                (q.name ++ "_VALUE", PyVal.vstr last_input)]
              match pyInt? last_input with
              | none => (Except.error FormExc.valueErrorExc, writes)
              | some k =>
                (Except.ok (stateSet
                    (stateSet state2 q.name (PyVal.vstr last_input))
                    (q.name ++ "_VALUE") (PyVal.vint (k - 1))), writes)
          else (Except.ok state2, [])
      else (Except.ok state2, [])
    match captured with
    | (Except.error e, w) => (Except.error e, w)
    | (Except.ok state3, w) =>
      match qlookup qs (toString (current + 1)) with
      | some q2 =>
        let state4 :=
          if state3 "FORM_STEP" = none ∨ isBack then
            stateSet state3 "FORM_STEP" (PyVal.vint (current + 1))
          else state3
        let state5 := stateSet state4 "USSD_RESPONSE_MENU_NAME" (PyVal.vstr q2.name)
        let rendered :=
          match q2.menu with
          | Menu.listInput li => li.get_items
          | Menu.str s => s
        (Except.ok (rendered, state5, true), w)
      | none =>
        if current ≤ -1 then (Except.error FormExc.formBackErrorExc, w)
        else (Except.error FormExc.keyErrorExc, w)
  else
    let state2 := stateSet state1 "USSD_VALID_LAST_INPUT" (PyVal.vint 0)
    match qlookup qs (toString current) with
    | none => (Except.error FormExc.keyErrorExc, [])
    | some q =>
      let menuBody :=
        match q.menu with
        | Menu.listInput li => li.get_items.drop 4
        | Menu.str m => m
      let rendered := "CON Invalid input\n" ++ menuBody
      let state3 := stateSet state2 "USSD_RESPONSE_MENU_NAME" (PyVal.vstr "ERROR")
      (Except.ok (rendered, state3, false), [])

/-- The `form_state` patch a NavigationMenu with children emits when
rendered (main.py line 465): `FORM_STEP` mapped to `None` (so it is deleted
by `_redis_processing`) and the menu name, uppercased. -/
def navFormState (name : String) : SessionState :=
  fun k =>
    if k = "FORM_STEP" then some PyVal.vnone
    else if k = "USSD_RESPONSE_MENU_NAME" then some (PyVal.vstr name.toUpper)
    else none

/-- NavigationController._redis_processing (main.py lines 613-633) read
pointwise: patch fields holding `None` are deleted from the session hash,
other patch fields overwrite it, fields outside the patch keep their stored
value.  (Composite values are JSON-encoded by the Python before writing;
the claims only touch scalar fields.) -/
def redis_processing (store : SessionState) (patch : SessionState) : SessionState :=
  fun k =>
    match patch k with
    | some PyVal.vnone => none
    | some v => some v
    | none => store k

/-- A two-question form with plain string menus, used to evaluate the form
state machine at concrete inputs. -/
def twoStepQuestions : List (String × Question) :=
  [("1", ⟨"Name", Menu.str "CON Name?"⟩), ("2", ⟨"Age", Menu.str "CON Age?"⟩)]

/-- A one-question form (so `N = 1`). -/
def oneStepQuestions : List (String × Question) :=
  [("1", ⟨"Name", Menu.str "CON Name?"⟩)]

/-- A `step_validator` that accepts every input and adds no extra data. -/
def alwaysTrueValidator : Int → String → Bool × Option (List (String × PyVal)) :=
  fun _ _ => (true, none)

/-- A `step_validator` that accepts every input and writes `FORM_STEP = 7`
into its extra data (the documented step-jump device, main.py lines
289-294). -/
def jumpValidator : Int → String → Bool × Option (List (String × PyVal)) :=
  fun _ _ => (true, some [("FORM_STEP", PyVal.vint 7)])

/-! ## Navigation tree walking -/

/-- A navigation tree node: `NavigationMenu` reduced to its child list
(main.py lines 427-507).  `ConditionalFlow` nodes resolve through a user
callback into a replacement root before any token is consumed (lines
597-599) and are outside the pure model; titles and attached forms do not
influence `path_navigator`. -/
inductive NavMenu
  | node (children : List NavMenu)

def NavMenu.children : NavMenu → List NavMenu
  | node cs => cs

/-- Python list indexing `l[i]` for a possibly negative `i`: negative
indices count from the end; `none` stands for `IndexError`. -/
def pyIndex {α : Type} (l : List α) (i : Int) : Option α :=
  if 0 ≤ i then l[i.toNat]?
  else if i.natAbs ≤ l.length then l[l.length - i.natAbs]?
  else none

/-- The exception `path_navigator` can raise. -/
inductive NavExc
  | navigationInvalidChoice
deriving DecidableEq

/-- NavigationController.path_navigator (main.py lines 593-611) over menu
nodes: an empty path returns the node; otherwise the head token is popped
first, a node *without* children then returns itself (line 609), and a node
with children evaluates `int(idx)` and `children[idx - 1]` — `ValueError`
or `IndexError` become `NavigationInvalidChoice` (lines 602-607). -/
def path_navigator (start : NavMenu) (path : List String) : Except NavExc NavMenu :=
  match path with
  | [] => Except.ok start
  | t :: rest =>
    match start.children with
    | [] => Except.ok start
    | _ :: _ =>
      match pyInt? t with
      | none => Except.error NavExc.navigationInvalidChoice
      | some i =>
        match pyIndex start.children (i - 1) with
        | none => Except.error NavExc.navigationInvalidChoice
        | some child => path_navigator child rest

/-! ## Channel framing (repository-root main.py) -/

/-- The channel tag (both generations, main.py lines 16-22). -/
inductive Channels
  | ussd
  | whatsapp
  | telegram
deriving DecidableEq

/-- The value old-generation `FormFlow._response` hands back to
`get_response` (repository-root main.py lines 143-158): a question dict —
whose `menu` entry is the message — or a plain string.  `_response` does
not read `self.channel`, so the message is channel-independent. -/
inductive OldResp
  | rdict (menu : String)
  | rstr (s : String)

/-- Old-generation FormFlow.get_response (repository-root main.py lines
151-163): extract the message, then strip the four-character
`CON `/`END ` frame for the chat channels. -/
def get_response_framed (resp : OldResp) (channel : Channels) : String :=
  let message :=
    match resp with
    | OldResp.rdict menu => menu
    | OldResp.rstr s => s
  if channel = Channels.whatsapp ∨ channel = Channels.telegram then message.drop 4
  else message

/-! ## Placeholder interpolation (format_response) -/

/-- Scan a replacement field up to its closing brace, as
`string.Formatter().parse` does for a bare `{name}` field: returns the
field name and the remainder after the brace. -/
def scanField : List Char → List Char × List Char
  | [] => ([], [])
  | c :: rest =>
    if c = '}' then ([], rest)
    else
      let p := scanField rest
      (c :: p.1, p.2)

/-- `str.format`'s rendering of one replacement field against the session
hash: the stored string for a present field, `str(None) = "None"` for a
field `r.hget` does not find (Redis `hget` returns `None` and
`"{x}".format(x=None)` prints `None`). -/
def pyFieldChars (store : String → Option String) (name : List Char) : List Char :=
  match store (String.mk name) with
  | some v => v.data
  | none => "None".data

/-- Character-level model of `resp.format(**kwargs)` as
`NavigationController.format_response` calls it (main.py lines 734-742),
for templates made of literal text, bare `{name}` fields and doubled-brace
escapes.  Format specs/conversions and unmatched braces (which raise in
Python) are outside the model; the engine's own templates only use bare
fields. -/
def formatChars (store : String → Option String) : List Char → List Char
  | [] => []
  | c :: rest =>
    if c = '{' then
      if rest.head? = some '{' then '{' :: formatChars store (rest.drop 1)
      else
        let p := scanField rest
        pyFieldChars store p.1 ++ formatChars store p.2
    else if c = '}' then
      if rest.head? = some '}' then '}' :: formatChars store (rest.drop 1)
      else c :: formatChars store rest
    else c :: formatChars store rest
termination_by cs => cs.length
decreasing_by
  · simp [List.length_drop]
    omega
  · have hsf : ∀ cs : List Char, (scanField cs).2.length ≤ cs.length := by
      intro cs
      induction cs with
      | nil => simp [scanField]
      | cons c rest2 ih =>
        by_cases hc : c = '}'
        · simp [scanField, hc]
        · simp only [scanField, if_neg hc]
          exact le_trans ih (Nat.le_succ _)
    have := hsf rest
    simp
    omega
  · simp [List.length_drop]
    omega
  · simp
  · simp

/-- NavigationController.format_response (main.py lines 734-742): collect
the replacement-field names, fetch each from the session hash, substitute. -/
def format_response (store : String → Option String) (resp : String) : String :=
  String.mk (formatChars store resp.data)

/-! ## Stored-path loading (get_processed_path) -/

/-- Whitespace skipping for the JSON reader. -/
def skipWs (cs : List Char) : List Char := cs.dropWhile (fun c => c = ' ')

/-- Scan to a terminator character; `none` when it never occurs. -/
def scanTo (stop : Char) : List Char → Option (List Char × List Char)
  | [] => none
  | c :: rest =>
    if c = stop then some ([], rest)
    else (scanTo stop rest).map (fun p => (c :: p.1, p.2))

/-- One or more comma-separated JSON strings followed by `]`, read with
explicit fuel (any fuel beyond the character count behaves identically,
since every round consumes at least one character). -/
def parseJsonItems : Nat → List Char → Option (List String × List Char)
  | 0, _ => none
  | f + 1, cs =>
    match skipWs cs with
    | '"' :: rest =>
      match scanTo '"' rest with
      | none => none
      | some (item, r) =>
        match skipWs r with
        | ',' :: r2 =>
          (parseJsonItems f r2).map (fun p => (String.mk item :: p.1, p.2))
        | ']' :: r2 => some ([String.mk item], r2)
        | _ => none
    | _ => none

/-- Model of `json.loads` restricted to the documents `PROCESSED_PATH` can
hold: JSON arrays of (escape-free) strings, which is what `navigate` itself
writes via `json.dumps(pro_path)`.  `none` models `json.loads` raising on a
malformed document.  (A well-formed JSON document of another shape is also
mapped to `none`; such a value is never produced by the engine's own
writes, and the claims only concern the default-to-empty behaviour.) -/
def jsonParseStrList (s : String) : Option (List String) :=
  match skipWs s.data with
  | '[' :: rest =>
    match skipWs rest with
    | ']' :: tail => if skipWs tail = [] then some [] else none
    | _ =>
      match parseJsonItems (rest.length + 1) rest with
      | some (items, tail) => if skipWs tail = [] then some items else none
      | none => none
  | _ => none

/-- NavigationController.get_processed_path (main.py lines 722-732): a
missing or empty (falsy) stored value defaults to the text `"[]"`, and a
`json.loads` failure is caught and yields `[]`. -/
def get_processed_path (stored : Option String) : List String :=
  let processed_path :=
    match stored with
    | none => "[]"
    | some t => if t = "" then "[]" else t
  match jsonParseStrList processed_path with
  | some l => l
  | none => []

/-! ## Theorems -/

theorem normalize_path_eq (p : List String) : normalize_path p = pathProcess p 1 := by
  simp [normalize_path, path_processor]

theorem pathProcess_nil (i : Nat) : pathProcess [] i = [] := by
  rw [pathProcess]
  simp

theorem getElem?_some_lt {α : Type} {l : List α} {n : Nat} {a : α}
    (h : l[n]? = some a) : n < l.length := by
  by_contra hn
  rw [List.getElem?_eq_none (by omega)] at h
  simp at h

/-- Tokens popped by the back branch leave positions before `index - 1`
untouched. -/
theorem popPair_getElem?_of_lt (p : List String) (i j : Nat) (hi : i ≠ 0)
    (hj : j < i - 1) : (popPair p i)[j]? = p[j]? := by
  simp only [popPair, if_neg hi, List.getElem?_eraseIdx]
  rw [if_pos hj, if_pos (by omega)]

/-- Scan invariant of `_path_process`: if every already-scanned position
(`1 ≤ j < index`) holds a plain token, then every position after the head of
the result holds a plain token.  In particular (at `index = 1`) the tail of
a normalized path never contains the back or home symbol; the head, however,
can (see `c3_counterexample`). -/
theorem pathProcess_tail_clean (p : List String) (i : Nat)
    (h : ∀ j x, 1 ≤ j → j < i → p[j]? = some x → x ≠ back_symbol ∧ x ≠ home_symbol) :
    ∀ x ∈ (pathProcess p i).drop 1, x ≠ back_symbol ∧ x ≠ home_symbol := by
  revert h
  induction p, i using pathProcess.induct with
  | case1 p i hcond =>
    intro _h
    rw [pathProcess]
    simp [hcond]
  | case2 p i hcond hlen =>
    intro _h
    rw [pathProcess]
    simp only [if_neg hcond, if_pos hlen]
    intro x hx
    rw [List.drop_eq_nil_of_le (by omega)] at hx
    simp at hx
  | case3 p i hcond hlen hidx =>
    intro h
    rw [pathProcess]
    simp only [if_neg hcond, if_neg hlen, if_pos hidx]
    intro x hx
    obtain ⟨m, hm⟩ := List.mem_iff_getElem?.mp hx
    rw [List.getElem?_drop] at hm
    have hmlen := getElem?_some_lt hm
    exact h (1 + m) x (by omega) (by omega) hm
  | case4 p i hcond hlen hidx hb p2 hgt ih =>
    intro h
    have hi : i ≠ 0 := by
      intro h0
      subst h0
      rw [← List.head?_eq_getElem?] at hb
      exact hcond (Or.inl hb)
    rw [pathProcess]
    simp only [if_neg hcond, if_neg hlen, if_neg hidx, if_pos hb, if_pos hgt]
    exact ih (fun j x hj1 hj2 hjx => h j x hj1 (by omega)
      (by rw [← popPair_getElem?_of_lt p i j hi hj2]; exact hjx))
  | case5 p i hcond hlen hidx hb p2 hle =>
    intro h
    have hi : i ≠ 0 := by
      intro h0
      subst h0
      rw [← List.head?_eq_getElem?] at hb
      exact hcond (Or.inl hb)
    rw [pathProcess]
    simp only [if_neg hcond, if_neg hlen, if_neg hidx, if_pos hb, if_neg hle]
    intro x hx
    have hp2 : p2 = popPair p i := rfl
    obtain ⟨m, hm⟩ := List.mem_iff_getElem?.mp hx
    rw [List.getElem?_drop] at hm
    have hmlen := getElem?_some_lt hm
    have hlt : 1 + m < i - 1 := by
      rw [hp2] at hle
      omega
    rw [popPair_getElem?_of_lt p i (1 + m) hi hlt] at hm
    exact h (1 + m) x (by omega) (by omega) hm
  | case6 p i hcond hlen hidx hb hh p2 hgt ih =>
    intro _h
    rw [pathProcess]
    simp only [if_neg hcond, if_neg hlen, if_neg hidx, if_neg hb, if_pos hh, if_pos hgt]
    exact ih (fun j x hj1 hj2 _ => absurd hj2 (by omega))
  | case7 p i hcond hlen hidx hb hh p2 hle =>
    intro _h
    rw [pathProcess]
    simp only [if_neg hcond, if_neg hlen, if_neg hidx, if_neg hb, if_pos hh, if_neg hle]
    intro x hx
    have hp2 : p2 = List.drop (i + 1) p := rfl
    rw [List.drop_eq_nil_of_le (by rw [← hp2]; omega)] at hx
    simp at hx
  | case8 p i hcond hlen hidx hb hh ih =>
    intro h
    rw [pathProcess]
    simp only [if_neg hcond, if_neg hlen, if_neg hidx, if_neg hb, if_neg hh]
    refine ih (fun j x hj1 hj2 hjx => ?_)
    rcases Nat.lt_or_ge j i with hlt | hge
    · exact h j x hj1 hlt hjx
    · have hji : j = i := by omega
      subst hji
      constructor
      · intro hxb
        subst hxb
        exact hb hjx
      · intro hxh
        subst hxh
        exact hh hjx

/-- A path whose head is not a back/home token and whose tail holds no
back/home token is a fixed point of `_path_process`, at every start index. -/
theorem pathProcess_fixpoint (p : List String) (i : Nat)
    (hhead : ¬(p.head? = some back_symbol ∨ p.head? = some home_symbol))
    (htail : ∀ x ∈ p.drop 1, x ≠ back_symbol ∧ x ≠ home_symbol) :
    pathProcess p i = p := by
  revert hhead htail
  induction p, i using pathProcess.induct with
  | case1 p i hcond =>
    intro hhead _ht
    exact absurd hcond hhead
  | case2 p i hcond hlen =>
    intro _hh _ht
    rw [pathProcess]
    simp [hcond, hlen]
  | case3 p i hcond hlen hidx =>
    intro _hh _ht
    rw [pathProcess]
    simp only [if_neg hcond, if_pos hlen, if_pos hidx, ite_self]
  | case4 p i hcond hlen hidx hb p2 hgt ih =>
    intro _hh ht
    exfalso
    have hi : i ≠ 0 := by
      intro h0
      subst h0
      rw [← List.head?_eq_getElem?] at hb
      exact hcond (Or.inl hb)
    have hmem : back_symbol ∈ p.drop 1 := by
      rw [List.mem_iff_getElem?]
      exact ⟨i - 1, by rw [List.getElem?_drop, show 1 + (i - 1) = i by omega]; exact hb⟩
    exact (ht back_symbol hmem).1 rfl
  | case5 p i hcond hlen hidx hb p2 hle =>
    intro _hh ht
    exfalso
    have hi : i ≠ 0 := by
      intro h0
      subst h0
      rw [← List.head?_eq_getElem?] at hb
      exact hcond (Or.inl hb)
    have hmem : back_symbol ∈ p.drop 1 := by
      rw [List.mem_iff_getElem?]
      exact ⟨i - 1, by rw [List.getElem?_drop, show 1 + (i - 1) = i by omega]; exact hb⟩
    exact (ht back_symbol hmem).1 rfl
  | case6 p i hcond hlen hidx hb hh p2 hgt ih =>
    intro _hh ht
    exfalso
    have hi : i ≠ 0 := by
      intro h0
      subst h0
      rw [← List.head?_eq_getElem?] at hh
      exact hcond (Or.inr hh)
    have hmem : home_symbol ∈ p.drop 1 := by
      rw [List.mem_iff_getElem?]
      exact ⟨i - 1, by rw [List.getElem?_drop, show 1 + (i - 1) = i by omega]; exact hh⟩
    exact (ht home_symbol hmem).2 rfl
  | case7 p i hcond hlen hidx hb hh p2 hle =>
    intro _hh ht
    exfalso
    have hi : i ≠ 0 := by
      intro h0
      subst h0
      rw [← List.head?_eq_getElem?] at hh
      exact hcond (Or.inr hh)
    have hmem : home_symbol ∈ p.drop 1 := by
      rw [List.mem_iff_getElem?]
      exact ⟨i - 1, by rw [List.getElem?_drop, show 1 + (i - 1) = i by omega]; exact hh⟩
    exact (ht home_symbol hmem).2 rfl
  | case8 p i hcond hlen hidx hb hh ih =>
    intro hhead ht
    rw [pathProcess]
    simp only [if_neg hcond, if_neg hlen, if_neg hidx, if_neg hb, if_neg hh]
    exact ih hhead ht

theorem path_processor_none (p : List String) : path_processor p none = pathProcess p 1 := by
  simp [path_processor]

/-- One application of the normalizer makes the path a fixed point, provided
its tail is clean; with `pathProcess_tail_clean` this yields the amended
idempotence. -/
theorem pathProcess_idem_of_tail_clean (q : List String)
    (hq : ∀ x ∈ q.drop 1, x ≠ back_symbol ∧ x ≠ home_symbol) :
    pathProcess (pathProcess q 1) 1 = pathProcess q 1 := by
  by_cases hh : q.head? = some back_symbol ∨ q.head? = some home_symbol
  · have h1 : pathProcess q 1 = [] := by
      rw [pathProcess]
      simp [hh]
    rw [h1]
    exact pathProcess_nil 1
  · rw [pathProcess_fixpoint q 1 hh hq]
    exact pathProcess_fixpoint q 1 hh hq

/-- Claim C3, counterexample: the path normalizer is not idempotent.  On
`["1", "00", "0"]` the home token drops the first two entries and the scan
stops on the one-element remainder `["0"]` without examining it, so a back
token survives at the head; a second normalization maps `["0"]` to `[]`. -/
theorem c3_counterexample :
    normalize_path (normalize_path ["1", "00", "0"]) ≠ normalize_path ["1", "00", "0"] ∧
    normalize_path ["1", "00", "0"] = ["0"] ∧
    normalize_path (normalize_path ["1", "00", "0"]) = [] := by
  have h1 : normalize_path ["1", "00", "0"] = ["0"] := by
    rw [normalize_path_eq]
    simp [pathProcess, popPair, back_symbol, home_symbol]
  have h2 : normalize_path ["0"] = [] := by
    rw [normalize_path_eq]
    simp [pathProcess, back_symbol, home_symbol]
  refine ⟨?_, h1, ?_⟩
  · rw [h1, h2]
    simp
  · rw [h1, h2]

/-- Claim C3, amended: one normalization pass need not be idempotent (the
head of its output can still be a back/home token, `c3_counterexample`), but
a second pass reaches a fixed point: for every token list `p`,
`normalize(normalize(normalize p)) = normalize(normalize p)`. -/
theorem c3_amended_normalize_twice_idempotent (p : List String) :
    normalize_path (normalize_path (normalize_path p)) =
      normalize_path (normalize_path p) := by
  simp only [normalize_path_eq]
  exact pathProcess_idem_of_tail_clean _
    (pathProcess_tail_clean p 1 (fun j x hj1 hj2 _ => absurd hj2 (by omega)))

/-- Claim C5, counterexample: a turn whose last input is the home symbol and
fails validation (a childless root delegating to a form whose validator
rejects `"00"`) rewrites PROCESSED_PATH from `["1"]` to `[]`: normalization
collapses the whole candidate path, so popping one token afterwards does not
restore the pre-turn value. -/
theorem c5_counterexample :
    storedProcessedPath ["1"] "00" (some false) ≠ ["1"] ∧
    storedProcessedPath ["1"] "00" (some false) = [] := by
  have h : storedProcessedPath ["1"] "00" (some false) = [] := by
    simp only [storedProcessedPath, path_processor_none]
    simp [pathProcess, popPair, back_symbol, home_symbol]
  exact ⟨by rw [h]; simp, h⟩

/-- Claim C5, amended: on an invalid last input the PROCESSED_PATH stored
after the turn equals its value before the turn, provided the last input is
a nonempty token other than the back/home symbols and the stored path is in
normal form (its head is not a back/home token and its tail contains none) —
the invariant `navigate` maintains for the paths it stores. -/
theorem c5_amended_processed_path_restored (before : List String) (t : String)
    (ht0 : t ≠ "") (htb : t ≠ back_symbol) (hth : t ≠ home_symbol)
    (hhead : ¬(before.head? = some back_symbol ∨ before.head? = some home_symbol))
    (htail : ∀ x ∈ before.drop 1, x ≠ back_symbol ∧ x ≠ home_symbol) :
    storedProcessedPath before t (some false) = before := by
  have hh2 : ¬((before ++ [t]).head? = some back_symbol ∨
      (before ++ [t]).head? = some home_symbol) := by
    cases before with
    | nil => simp [htb, hth]
    | cons a l =>
      rw [List.cons_append, List.head?_cons]
      rw [List.head?_cons] at hhead
      exact hhead
  have ht2 : ∀ x ∈ (before ++ [t]).drop 1, x ≠ back_symbol ∧ x ≠ home_symbol := by
    intro x hx
    cases before with
    | nil => simp at hx
    | cons a l =>
      rw [List.cons_append, List.drop_succ_cons] at hx
      rcases List.mem_append.mp hx with hmem | hmem
      · exact htail x (by simpa using hmem)
      · rw [List.mem_singleton] at hmem
        subst hmem
        exact ⟨htb, hth⟩
  have hfix : pathProcess (before ++ [t]) 1 = before ++ [t] :=
    pathProcess_fixpoint _ 1 hh2 ht2
  simp only [storedProcessedPath, path_processor_none, if_pos ht0, reduceIte]
  rw [hfix]
  exact List.dropLast_concat

/-- Witness for `c5_amended_processed_path_restored` at the stored path
`["1"]` and input `"2"`. -/
theorem c5_witness : storedProcessedPath ["1"] "2" (some false) = ["1"] :=
  c5_amended_processed_path_restored ["1"] "2" (by decide) (by decide) (by decide)
    (by decide) (by decide)

/-- Claim C1, evaluation at the failing inputs.  At a validated plain-menu
step the code writes `{fname: last_input, fname_VALUE: last_input}` through
`set_var` (main.py lines 259-262) but then rebuilds the `_state` patch as
`{fname: last_input, fname_VALUE: int(last_input) - 1}` (lines 263-264): a
non-numeric validated input such as `"Alice"` makes `int(last_input)`
raise `ValueError` after the `set_var` write, and a numeric input `"5"`
leaves `Name_VALUE = 4` in the patch, not `"5"`. -/
theorem c1_plain_capture_bug :
    (formResponse twoStepQuestions alwaysTrueValidator 1 "Alice").1 =
      Except.error FormExc.valueErrorExc ∧
    (formResponse twoStepQuestions alwaysTrueValidator 1 "Alice").2 =
      [("Name", PyVal.vstr "Alice"), ("Name_VALUE", PyVal.vstr "Alice")] ∧
    (∃ r st, (formResponse twoStepQuestions alwaysTrueValidator 1 "5").1 =
        Except.ok (r, st, true) ∧
      st "Name" = some (PyVal.vstr "5") ∧
      st "Name_VALUE" = some (PyVal.vint 4)) :=
  ⟨rfl, rfl, "CON Age?", _, rfl, rfl, rfl⟩

/-- Claim C2, evaluation at the failing input.  With `N = 1` questions,
`current_step = 1` and a validated numeric input, the lookup of
`form_questions["2"]` raises `KeyError`; the handler assigns
`resp = "END Next step not specified"` and logs it, but the bare `raise` at
main.py line 311 re-raises the `KeyError`, so the terminal message never
reaches the caller. -/
theorem c2_end_message_is_raised :
    (formResponse oneStepQuestions alwaysTrueValidator 1 "5").1 =
      Except.error FormExc.keyErrorExc ∧
    oneStepQuestions.length = 1 :=
  ⟨rfl, rfl⟩

theorem stateSet_lookup_ne (st : SessionState) (k k2 : String) (v : PyVal)
    (h : k2 ≠ k) : stateSet st k v k2 = st k2 := if_neg h

theorem stateSet_lookup_eq (st : SessionState) (k : String) (v : PyVal) :
    stateSet st k v k = some v := if_pos rfl

theorem stateMerge_lookup_ne (l : List (String × PyVal)) (st : SessionState)
    (k : String) (h : ∀ p ∈ l, p.1 ≠ k) : stateMerge st l k = st k := by
  induction l generalizing st with
  | nil => rfl
  | cons p ps ih =>
    show stateMerge (stateSet st p.1 p.2) ps k = st k
    rw [ih _ (fun q hq => h q (List.mem_cons_of_mem p hq))]
    exact stateSet_lookup_ne st p.1 k p.2 (Ne.symm (h p (List.mem_cons_self p ps)))

/-- Claim C7, counterexample: when the validator's extra data itself places
a FORM_STEP in the patch (the step-jump device the code honours at main.py
lines 289-294), a validated non-back input does not set FORM_STEP to the
previous step plus one: previous step 1 with validated input `"5"` leaves
`FORM_STEP = 7`, not `2`. -/
theorem c7_counterexample :
    ∃ r st, (formResponse twoStepQuestions jumpValidator 1 "5").1 =
        Except.ok (r, st, true) ∧
      st "FORM_STEP" = some (PyVal.vint 7) ∧
      ¬ st "FORM_STEP" = some (PyVal.vint 2) :=
  ⟨"CON Age?", _, rfl, rfl, by decide⟩

/-- The final FORM_STEP lookup in the successful branch of `_response`
(main.py lines 286-294 and 328), once the patch built so far is known not
to hold a FORM_STEP. -/
theorem formStep_final_lookup (s : Int) (t : String) (state3 : SessionState)
    (q2name : String) (h3 : state3 "FORM_STEP" = none ∨ t = back_symbol) :
    stateSet
      (if state3 "FORM_STEP" = none ∨ t = back_symbol then
        stateSet state3 "FORM_STEP" (PyVal.vint (s + 1))
      else state3)
      "USSD_RESPONSE_MENU_NAME" (PyVal.vstr q2name) "FORM_STEP" =
      some (PyVal.vint (s + 1)) := by
  rw [stateSet_lookup_ne _ _ _ _ (by decide), if_pos h3, stateSet_lookup_eq]

/-- Claim C7, amended.  (i) A turn of the form state machine that returns
normally with a validated last input other than the back symbol writes
`FORM_STEP = previous step + 1`, provided neither the validator's extra
data nor the captured field name collides with the FORM_STEP field (the
validator patch would win — see `c7_counterexample`).  (ii) A back turn
that returns normally writes `FORM_STEP = previous step − 1` (when the
target question is missing the form raises instead — `FormBackError` or
`KeyError` — and nothing is returned).  (iii) Rendering a navigation menu
with children patches `FORM_STEP` to `None`, which `_redis_processing`
turns into a deletion, so the field is absent outside a form. -/
theorem c7_amended_form_step :
    (∀ qs v (s : Int) (t : String) (r : String) (st : SessionState),
        t ≠ back_symbol →
        (∀ l, (v s t).2 = some l → ∀ p ∈ l, p.1 ≠ "FORM_STEP") →
        (∀ q, qlookup qs (toString s) = some q →
          q.name ≠ "FORM_STEP" ∧ ¬ q.name ++ "_VALUE" = "FORM_STEP") →
        (formResponse qs v s t).1 = Except.ok (r, st, true) →
        st "FORM_STEP" = some (PyVal.vint (s + 1))) ∧
    (∀ qs v (s : Int) (r : String) (st : SessionState),
        (formResponse qs v s back_symbol).1 = Except.ok (r, st, true) →
        st "FORM_STEP" = some (PyVal.vint (s - 1))) ∧
    (∀ (store : SessionState) (name : String),
        redis_processing store (navFormState name) "FORM_STEP" = none) := by
  refine ⟨?_, ?_, ?_⟩
  · intro qs v s t r st hback hex hname hok
    simp only [formResponse, if_neg hback] at hok
    have hbase :
        (match (v s t).2 with
          | some extra => stateMerge emptyState extra
          | none => emptyState) "FORM_STEP" = none := by
      rcases hvex : (v s t).2 with _ | ex
      · rfl
      · exact stateMerge_lookup_ne ex emptyState "FORM_STEP" (hex ex hvex)
    have h2 :
        stateSet
          (match (v s t).2 with
            | some extra => stateMerge emptyState extra
            | none => emptyState)
          "USSD_VALID_LAST_INPUT" (PyVal.vint 1) "FORM_STEP" = none :=
      (stateSet_lookup_ne _ _ _ _ (by decide)).trans hbase
    have hsnd :
        (match get_step_type qs s with
          | some (Menu.listInput li) => (li.validate (some t), (v s t).2)
          | _ => v s t).2 = (v s t).2 := by
      rcases get_step_type qs s with _ | m
      · rfl
      · rcases m with li | ms <;> rfl
    rw [hsnd] at hok
    split at hok
    next hvalid =>
      split at hok
      next e w hcap =>
        simp at hok
      next state3 w hcap =>
        have h3 : state3 "FORM_STEP" = none := by
          split at hcap
          next hcond =>
            rcases hq : qlookup qs (toString s) with _ | q
            · rw [hq] at hcap
              simp at hcap
            · simp only [hq] at hcap
              obtain ⟨hn1, hn2⟩ := hname q hq
              by_cases hvf : isValidFieldName q.name = true
              · rw [if_pos hvf] at hcap
                rcases hm : q.menu with li | ms <;> simp only [hm] at hcap
                · rcases hpi : pyInt? t with _ | k <;> simp only [hpi] at hcap
                  · simp at hcap
                  · simp only [Prod.mk.injEq, Except.ok.injEq] at hcap
                    obtain ⟨hst3, -⟩ := hcap
                    rw [← hst3]
                    exact (stateSet_lookup_ne _ _ _ _ (Ne.symm hn2)).trans
                      ((stateSet_lookup_ne _ _ _ _ (Ne.symm hn1)).trans h2)
                · rcases hpi : pyInt? t with _ | k <;> simp only [hpi] at hcap
                  · simp at hcap
                  · simp only [Prod.mk.injEq, Except.ok.injEq] at hcap
                    obtain ⟨hst3, -⟩ := hcap
                    rw [← hst3]
                    exact (stateSet_lookup_ne _ _ _ _ (Ne.symm hn2)).trans
                      ((stateSet_lookup_ne _ _ _ _ (Ne.symm hn1)).trans h2)
              · rw [if_neg hvf] at hcap
                simp only [Prod.mk.injEq, Except.ok.injEq] at hcap
                obtain ⟨hst3, -⟩ := hcap
                rw [← hst3]
                exact h2
          next hcond =>
            simp only [Prod.mk.injEq, Except.ok.injEq] at hcap
            obtain ⟨hst3, -⟩ := hcap
            rw [← hst3]
            exact h2
        rcases hq2 : qlookup qs (toString (s + 1)) with _ | q2 <;> simp only [hq2] at hok
        · split at hok <;> simp at hok
        · simp only [Except.ok.injEq, Prod.mk.injEq] at hok
          obtain ⟨-, hst, -⟩ := hok
          subst hst
          exact formStep_final_lookup s t _ q2.name (Or.inl h3)
    next hvalid =>
      rcases hq : qlookup qs (toString s) with _ | q <;> simp only [hq] at hok <;> simp at hok
  · intro qs v s r st hok
    simp only [formResponse, reduceIte, ne_eq, not_true_eq_false, false_and, if_false,
      ite_true, ite_false, or_true] at hok
    rcases hq2 : qlookup qs (toString (s - 2 + 1)) with _ | q2 <;> simp only [hq2] at hok
    · split at hok <;> simp at hok
    · simp only [Except.ok.injEq, Prod.mk.injEq] at hok
      obtain ⟨-, hst, -⟩ := hok
      subst hst
      have hs : s - 2 + 1 = s - 1 := by omega
      rw [stateSet_lookup_ne _ _ _ _ (by decide), stateSet_lookup_eq, hs]
  · intro store name
    simp [redis_processing, navFormState]

/-- Claim C9: `ListInput.validate` over a static item list is a total
Bool-valued function (the Python wraps the body in
`try/except (ValueError, TypeError)` so it never raises on `str`/`None`
keys), returns `False` for `None`, and returns `True` exactly when the key
parses as an integer in `range(1, len(items) + 1)` (so `False` for
non-numeric strings). -/
theorem c9_listinput_validate_total (li : ListInputD) (key : Option String) :
    li.validate none = false ∧
    (li.validate key = true ↔
      ∃ s k, key = some s ∧ pyInt? s = some k ∧
        1 ≤ k ∧ k ≤ (li.items.length : Int)) := by
  refine ⟨rfl, ?_⟩
  cases key with
  | none => simp [ListInputD.validate]
  | some s =>
    cases hp : pyInt? s with
    | none => simp [ListInputD.validate, hp]
    | some k => simp [ListInputD.validate, hp]

/-- Claim C4, counterexample: the walker does not fail in two situations
the claim calls failures.  A childless node consumes the token and returns
itself; and on the two-child node the token `"0"` (1-based index 0, out of
range 1..2) resolves through Python negative indexing `children[-1]` to the
*last* child instead of raising. -/
theorem c4_counterexample :
    path_navigator (NavMenu.node []) ["7"] = Except.ok (NavMenu.node []) ∧
    (NavMenu.node []).children = [] ∧
    path_navigator (NavMenu.node [NavMenu.node [], NavMenu.node [NavMenu.node []]]) ["0"] =
      Except.ok (NavMenu.node [NavMenu.node []]) :=
  ⟨rfl, rfl, rfl⟩

/-- Claim C4, amended: after popping the head token the walker fails with
`NavigationInvalidChoice` exactly when the current node *has* children and
the token either does not parse as an integer or indexes outside the
children list under Python semantics (`children[int(t) - 1]`, where indices
`1 - n .. 0` resolve through negative indexing); a node without children
returns itself with the token consumed. -/
theorem c4_amended_walker_step (cs : List NavMenu) (t : String) :
    ((∃ e, path_navigator (NavMenu.node cs) [t] = Except.error e) ↔
      (cs ≠ [] ∧ (pyInt? t = none ∨
        ∃ i, pyInt? t = some i ∧ pyIndex cs (i - 1) = none))) ∧
    (cs = [] → path_navigator (NavMenu.node cs) [t] = Except.ok (NavMenu.node cs)) := by
  constructor
  · cases cs with
    | nil => simp [path_navigator, NavMenu.children]
    | cons c cs' =>
      cases hp : pyInt? t with
      | none =>
        simp [path_navigator, NavMenu.children, hp]
        exact ⟨NavExc.navigationInvalidChoice, trivial⟩
      | some i =>
        cases hx : pyIndex (c :: cs') (i - 1) with
        | none =>
          simp [path_navigator, NavMenu.children, hp, hx]
          exact ⟨NavExc.navigationInvalidChoice, trivial⟩
        | some child => simp [path_navigator, NavMenu.children, hp, hx]
  · intro h
    subst h
    rfl

/-- Claim C8: on WHATSAPP or TELEGRAM the returned string is byte-identical
to the USSD-channel return for the same turn with its first four characters
removed. -/
theorem c8_channel_framing (resp : OldResp) (channel : Channels)
    (h : channel = Channels.whatsapp ∨ channel = Channels.telegram) :
    get_response_framed resp channel =
      (get_response_framed resp Channels.ussd).drop 4 := by
  rcases h with h | h <;> subst h <;> rcases resp with m | s <;> rfl

/-- Witness for `c8_channel_framing` on a concrete message. -/
theorem c8_witness :
    get_response_framed (OldResp.rstr "CON Hello") Channels.whatsapp =
      (get_response_framed (OldResp.rstr "CON Hello") Channels.ussd).drop 4 :=
  c8_channel_framing (OldResp.rstr "CON Hello") Channels.whatsapp (Or.inl rfl)

theorem scanField_rest_le (cs : List Char) : (scanField cs).2.length ≤ cs.length := by
  induction cs with
  | nil => simp [scanField]
  | cons c rest ih =>
    by_cases hc : c = '}'
    · simp [scanField, hc]
    · simp only [scanField, if_neg hc]
      exact le_trans ih (Nat.le_succ _)

/-- Claim C6, counterexample: a `{name}` placeholder whose field is absent
from the session is replaced by the string `None` (because `r.hget` returns
Python `None` and `str.format` renders it as `str(None)`), not by the empty
string. -/
theorem c6_counterexample :
    format_response (fun _ => none) "Hi {Name}!" = "Hi None!" ∧
    ¬ format_response (fun _ => none) "Hi {Name}!" = "Hi !" := by
  have hL : format_response (fun _ => none) "Hi {Name}!" = "Hi None!" := by
    show String.mk (formatChars (fun _ => none) "Hi {Name}!".data) = "Hi None!"
    have he : formatChars (fun _ => none) "Hi {Name}!".data = "Hi None!".data := by
      simp [formatChars, scanField, pyFieldChars]
    rw [he]
  exact ⟨hL, by rw [hL]; decide⟩

/-- With no closing brace inside the name, `scanField` stops exactly at the
closing brace. -/
theorem scanField_exact (name post : List Char) (h : ∀ c ∈ name, c ≠ '}') :
    scanField (name ++ '}' :: post) = (name, post) := by
  induction name with
  | nil => simp [scanField]
  | cons c rest ih =>
    have hc : c ≠ '}' := h c (List.mem_cons_self c rest)
    simp only [List.cons_append, scanField, if_neg hc, List.append_eq,
      ih (fun d hd => h d (List.mem_cons_of_mem c hd))]

/-- Claim C6, amended: every bare `{name}` replacement field is substituted
with the session field's value when present, and with the string `None`
when the field is absent (not the empty string — see `c6_counterexample`);
preceding brace-free literal text passes through unchanged and the rest of
the template is formatted recursively. -/
theorem c6_amended_interpolation (store : String → Option String)
    (pre name post : List Char)
    (hpre : ∀ c ∈ pre, c ≠ '{' ∧ c ≠ '}')
    (hname : ∀ c ∈ name, c ≠ '{' ∧ c ≠ '}')
    (hn0 : name ≠ []) :
    formatChars store (pre ++ '{' :: (name ++ '}' :: post)) =
      pre ++ pyFieldChars store name ++ formatChars store post := by
  induction pre with
  | nil =>
    rw [List.nil_append]
    rw [formatChars]
    rw [if_pos rfl]
    have hhead : (name ++ '}' :: post).head? ≠ some '{' := by
      cases name with
      | nil => exact absurd rfl hn0
      | cons c rest =>
        simp only [List.cons_append, List.head?_cons, ne_eq, Option.some.injEq]
        exact (hname c (List.mem_cons_self c rest)).1
    rw [if_neg hhead]
    rw [scanField_exact name post (fun c hc => (hname c hc).2)]
    simp
  | cons c pre' ih =>
    obtain ⟨hc1, hc2⟩ := hpre c (List.mem_cons_self c pre')
    rw [List.cons_append]
    rw [formatChars]
    rw [if_neg hc1, if_neg hc2]
    rw [ih (fun d hd => hpre d (List.mem_cons_of_mem c hd))]
    simp

/-- Witness for `c6_amended_interpolation`: the field `Name` holding
`Alice` is interpolated into `Hi {Name}`. -/
theorem c6_witness :
    format_response (fun k => if k = "Name" then some "Alice" else none)
      "Hi {Name}" = "Hi Alice" := by
  have h := c6_amended_interpolation
    (fun k => if k = "Name" then some "Alice" else none)
    ['H', 'i', ' '] ['N', 'a', 'm', 'e'] []
    (by decide) (by decide) (by decide)
  show String.mk (formatChars _ "Hi {Name}".data) = "Hi Alice"
  rw [show "Hi {Name}".data =
    ['H', 'i', ' '] ++ '{' :: (['N', 'a', 'm', 'e'] ++ '}' :: []) from rfl]
  rw [h]
  have h1 : pyFieldChars (fun k => if k = "Name" then some "Alice" else none)
      ['N', 'a', 'm', 'e'] = "Alice".data := rfl
  have h2 : formatChars (fun k => if k = "Name" then some "Alice" else none)
      ([] : List Char) = [] := by
    rw [formatChars]
  rw [h1, h2]
  rfl

/-- Claim C10: when PROCESSED_PATH is absent, empty, or fails to parse as
JSON, `get_processed_path` returns the empty path instead of failing. -/
theorem c10_processed_path_default (s : String) (hs : jsonParseStrList s = none) :
    get_processed_path none = [] ∧
    get_processed_path (some "") = [] ∧
    get_processed_path (some s) = [] := by
  refine ⟨rfl, rfl, ?_⟩
  by_cases h0 : s = ""
  · subst h0
    rfl
  · simp only [get_processed_path, if_neg h0, hs]

/-- Witness for `c10_processed_path_default` on a non-JSON stored value. -/
theorem c10_witness :
    get_processed_path none = [] ∧
    get_processed_path (some "") = [] ∧
    get_processed_path (some "not json") = [] :=
  c10_processed_path_default "not json" (by decide)

/-- Sanity evaluations of the `int()` model. -/
theorem pyInt_sanity :
    pyInt? "12" = some 12 ∧ pyInt? "-3" = some (-3) ∧ pyInt? "Alice" = none ∧
    pyInt? "00" = some 0 ∧ pyInt? "" = none := by
  refine ⟨by decide, by decide, by decide, by decide, by decide⟩

/-- Sanity evaluations of the normalizer on back-token folding: a back
token drops itself and the preceding token, and a leading back/home token
empties the path. -/
theorem pathProcess_sanity :
    pathProcess ["1", "2", "0"] 1 = ["1"] ∧ pathProcess ["1", "0"] 1 = [] ∧
    pathProcess ["0"] 1 = [] ∧ pathProcess ["1", "2", "00", "3"] 1 = ["3"] := by
  refine ⟨?_, ?_, ?_, ?_⟩ <;> simp [pathProcess, popPair, back_symbol, home_symbol]

/-- Sanity evaluation of the JSON reader on a document `json.dumps`
produces for a stored path. -/
theorem jsonParse_sanity :
    jsonParseStrList "[\"1\", \"2\"]" = some ["1", "2"] ∧
    jsonParseStrList "[]" = some [] := by
  refine ⟨by decide, by decide⟩

end Anysd
